import Mathlib

/-!
Verification of the PyMU synchrophasor frame codec (IEEE C37.118 style).

The Python source handles every frame as a hex string and slices it by
character counts.  We embed a hex string as a list of hex-digit values
(each 0 to 15) and translate each parsing routine directly from the
source, keeping names where possible.  Exact rational or real arithmetic
stands in for Python numeric types; IEEE-754 bit patterns are decoded
exactly into rationals.

The helper module pmuLib and the base classes in pmuFrame/pmuEnum are not
part of the provided sources; the few helpers they contribute (hexToBin,
bytesToHexStr, intToHexStr, doubleToHexStr, the enum code tables, and the
SOC epoch conversion) are modelled from the spec, as marked on each
definition.
-/

namespace PyMU

/-- A hex string of the source, embedded as the list of hex-digit values (0 to 15). -/
abbrev HexStr := List Nat

/-- Modelled from the spec: pmuLib.bytesToHexStr turns each byte into two hex
digits, high nibble first. -/
def bytesToHexStr (bs : List Nat) : HexStr :=
  bs.flatMap (fun b => [b / 16 % 16, b % 16])

/-- Value of a hex string, most significant digit first; embeds int(h, 16). -/
def hexVal (h : HexStr) : Nat :=
  h.foldl (fun a d => 16 * a + d) 0

/-- Modelled from the spec: pmuLib.hexToBin h n is the binary string of
int(h, 16) zero-padded on the left to n bits, most significant bit first.
All call sites pass values below 2 to the n, where this model is exact. -/
def hexToBin (h : HexStr) (n : Nat) : List Bool :=
  (List.range n).map (fun i => Nat.testBit (hexVal h) (n - 1 - i))

/-- Value of a binary string slice, as int(b, 2). -/
def binVal (b : List Bool) : Nat :=
  b.foldl (fun a d => 2 * a + (if d then 1 else 0)) 0

/-- bytes.fromhex: pair up hex digits into byte values. -/
def hexToBytes (h : HexStr) : List Nat :=
  match h with
  | a :: b :: rest => (16 * a + b) :: hexToBytes rest
  | _ => []

/-- struct.unpack with format !h : a 16-bit big-endian two-complement integer. -/
def signed16 (v : Nat) : Int :=
  if v < 32768 then (v : Int) else (v : Int) - 65536

/-- struct.unpack with format !f : exact value of an IEEE-754 binary32 bit
pattern, as a rational.  Non-finite encodings (exponent 255) do not occur in
any claim and are mapped to 0. -/
def decodeFloat32 (v : Nat) : ℚ :=
  let sgn : ℚ := if v / 2 ^ 31 % 2 = 1 then -1 else 1
  let e : Nat := v / 2 ^ 23 % 2 ^ 8
  let m : Nat := v % 2 ^ 23
  if e = 0 then sgn * (m : ℚ) * (2 : ℚ) ^ (-149 : Int)
  else if e = 255 then 0
  else sgn * ((2 ^ 23 + m : Nat) : ℚ) * (2 : ℚ) ^ ((e : Int) - 150)

/-- Python str.strip on a byte string: drop ASCII whitespace from both ends. -/
def isPySpace (b : Nat) : Bool :=
  b = 32 || b = 9 || b = 10 || b = 13 || b = 11 || b = 12

/-- str.strip embedded on byte lists. -/
def pstrip (s : List Nat) : List Nat :=
  ((s.dropWhile isPySpace).reverse.dropWhile isPySpace).reverse

/-!
## Stat: the bit-mapped status word of a PMU block (pmuDataFrame.Stat)

The source decodes nine flag fields out of a 4-hex-digit STAT word.  Each
field of the Python object starts as None and is assigned by one parse
method; pmuEnum is not in the sources, so the enum member names are
modelled by their raw integer codes (spec section 4.3 gives the code
layout).  An unassigned field is modelled as none.
-/

structure Stat where
  dataError : Option Nat
  pmuSync : Option Nat
  sorting : Option Nat
  pmuTrigger : Option Nat
  configChange : Option Nat
  dataModified : Option Nat
  timeQuality : Option Nat
  unlockedTime : Option Nat
  triggerReason : Option Nat
  deriving Repr, DecidableEq

namespace Stat

/-- The freshly constructed Stat object: every field is None. -/
def init : Stat := ⟨none, none, none, none, none, none, none, none, none⟩

/-- Bit i of a binary string, as the integer 0 or 1 (indexing a Python string). -/
def bitAt (l : List Bool) (i : Nat) : Nat :=
  if l.getD i false then 1 else 0

/-- parseDataError: int(hexToBin(statHex[0], 4)[:2], 2). -/
def parseDataError (h : HexStr) (s : Stat) : Stat :=
  { s with dataError := some (binVal ((hexToBin (h.take 1) 4).take 2)) }

/-- parsePmuSync: int(hexToBin(statHex[0], 4)[2], 2). -/
def parsePmuSync (h : HexStr) (s : Stat) : Stat :=
  { s with pmuSync := some (bitAt (hexToBin (h.take 1) 4) 2) }

/-- parseSorting: int(hexToBin(statHex[0], 4)[3], 2). -/
def parseSorting (h : HexStr) (s : Stat) : Stat :=
  { s with sorting := some (bitAt (hexToBin (h.take 1) 4) 3) }

/-- parsePmuTrigger: int(hexToBin(statHex[1], 4)[0], 2). -/
def parsePmuTrigger (h : HexStr) (s : Stat) : Stat :=
  { s with pmuTrigger := some (bitAt (hexToBin ((h.drop 1).take 1) 4) 0) }

/-- parseConfigChange: int(hexToBin(statHex[1], 4)[1], 2). -/
def parseConfigChange (h : HexStr) (s : Stat) : Stat :=
  { s with configChange := some (bitAt (hexToBin ((h.drop 1).take 1) 4) 1) }

/-- parseDataModified: int(hexToBin(statHex[1], 4)[2], 2). -/
def parseDataModified (h : HexStr) (s : Stat) : Stat :=
  { s with dataModified := some (bitAt (hexToBin ((h.drop 1).take 1) 4) 2) }

/-- The time-quality code extracted by parseTimeQuality:
int(hexToBin(statHex[1:3], 8)[3:6], 2), the status word bits 7 to 9. -/
def timeQualityCode (h : HexStr) : Nat :=
  binVal (((hexToBin ((h.drop 1).take 2) 8).drop 3).take 3)

/-- parseTimeQuality: the source assigns the decoded time-quality code to
self.unlockedTime, not to self.timeQuality. -/
def parseTimeQuality (h : HexStr) (s : Stat) : Stat :=
  { s with unlockedTime := some (timeQualityCode h) }

/-- The unlocked-time code extracted by parseUnlockTime:
int(hexToBin(statHex[2], 4)[2:], 2), the status word bits 10 to 11. -/
def unlockedTimeCode (h : HexStr) : Nat :=
  binVal ((hexToBin ((h.drop 2).take 1) 4).drop 2)

/-- parseUnlockTime: assigns the unlocked-time code to self.unlockedTime. -/
def parseUnlockTime (h : HexStr) (s : Stat) : Stat :=
  { s with unlockedTime := some (unlockedTimeCode h) }

/-- parseTriggerReason: int(hexToBin(statHex[3], 4), 2). -/
def parseTriggerReason (h : HexStr) (s : Stat) : Stat :=
  { s with triggerReason := some (binVal (hexToBin ((h.drop 3).take 1) 4)) }

/-- Stat construction: the parse methods run in the order of the source
constructor. -/
def parse (h : HexStr) : Stat :=
  parseTriggerReason h (parseUnlockTime h (parseTimeQuality h
    (parseDataModified h (parseConfigChange h (parsePmuTrigger h
      (parseSorting h (parsePmuSync h (parseDataError h init))))))))

end Stat

/-!
## Station: one PMU descriptor of a config frame (pmuConfigFrame.Station)

pmuEnum is not in the sources; per the spec, NumType is INTEGER=0 / FLOAT=1
and the phasor representation is RECT=0 / POLAR=1, so the two enums are
modelled as inductives with those member names.
-/

/-- Numeric-format flag of a channel group: INTEGER = 0, FLOAT = 1. -/
inductive NumType where
  | INTEGER
  | FLOAT
  deriving Repr, DecidableEq

/-- Phasor representation flag: RECT = 0, POLAR = 1. -/
inductive PhsrFmt where
  | RECT
  | POLAR
  deriving Repr, DecidableEq

/-- NumType from one format bit. -/
def NumType.ofBit (b : Bool) : NumType := if b then .FLOAT else .INTEGER

/-- PhsrFmt from one format bit. -/
def PhsrFmt.ofBit (b : Bool) : PhsrFmt := if b then .POLAR else .RECT

/-- Phasor conversion factor entry (pmuConfigFrame.Phunit): first byte is the
measurement-kind code (0 = VOLTAGE, 1 = CURRENT per the spec), the remaining
three bytes an integer scale factor.  The enum member name is modelled by the
raw code. -/
structure Phunit where
  voltORcurr : Nat
  value : Nat
  deriving Repr, DecidableEq

/-- Phunit parse of one 8-hex-digit entry. -/
def Phunit.parse (h : HexStr) : Phunit :=
  ⟨hexVal (h.take 2), hexVal (h.drop 2)⟩

/-- Analog conversion factor entry (pmuConfigFrame.Anunit).  The source
stores anunitHex[1:] in a field spelled userDefiend. -/
structure Anunit where
  anlgMsrmnt : Nat
  userDefiend : HexStr
  deriving Repr, DecidableEq

/-- Anunit parse of one 8-hex-digit entry. -/
def Anunit.parse (h : HexStr) : Anunit :=
  ⟨hexVal (h.take 2), h.drop 1⟩

/-- Digital mask entry (pmuConfigFrame.Digunit): kept as the raw hex field. -/
structure Digunit where
  digunitHex : HexStr
  deriving Repr, DecidableEq

/-- Digunit parse of one 8-hex-digit entry. -/
def Digunit.parse (h : HexStr) : Digunit := ⟨h⟩

/-- The parsed Station record.  Channel names are byte lists (the source keeps
them as ASCII strings). -/
structure Station where
  stn : List Nat
  idcode_data : Nat
  freqType : NumType
  anlgType : NumType
  phsrType : NumType
  phsrFmt : PhsrFmt
  phnmr : Nat
  annmr : Nat
  dgnmr : Nat
  channels : List (List Nat)
  phunits : List Phunit
  anunits : List Anunit
  digunits : List Digunit
  fnom : Nat
  cfgcnt : Nat

namespace Station

/-- Station parse, following the source field order with a running offset:
name (32 hex), id code (4), format word (4, low four bits), phasor count (4),
analog count (4), digital count (4), channel name table (32 per channel,
phnmr + annmr + 16 * dgnmr channels), phasor units (8 per phasor), analog
units (8 per analog), digital units (8 per digital word), nominal frequency
(4; the source reads the single hex digit one past the field), change
count (4). -/
def parse (f : HexStr) : Station :=
  let stn := (hexToBytes (f.take 32)).filter (fun b => b ≠ 0)
  let idcode := hexVal ((f.drop 32).take 4)
  let fmts := (hexToBin ((f.drop 36).take 4) 32).drop 28
  let freqType := NumType.ofBit (fmts.getD 0 false)
  let anlgType := NumType.ofBit (fmts.getD 1 false)
  let phsrType := NumType.ofBit (fmts.getD 2 false)
  let phsrFmt := PhsrFmt.ofBit (fmts.getD 3 false)
  let phnmr := hexVal ((f.drop 40).take 4)
  let annmr := hexVal ((f.drop 44).take 4)
  let dgnmr := hexVal ((f.drop 48).take 4)
  let numOfChns := phnmr + annmr + 16 * dgnmr
  let channels := (List.range numOfChns).map (fun i =>
    (hexToBytes ((f.drop (52 + 32 * i)).take 32)).takeWhile (fun b => b ≠ 0))
  let o7 := 52 + 32 * numOfChns
  let phunits := (List.range phnmr).map (fun i =>
    Phunit.parse ((f.drop (o7 + 8 * i)).take 8))
  let o8 := o7 + 8 * phnmr
  let anunits := (List.range annmr).map (fun i =>
    Anunit.parse ((f.drop (o8 + 8 * i)).take 8))
  let o9 := o8 + 8 * annmr
  let digunits := (List.range dgnmr).map (fun i =>
    Digunit.parse ((f.drop (o9 + 8 * i)).take 8))
  let o10 := o9 + 8 * dgnmr
  let fnom := if Nat.testBit (hexVal ((f.drop (o10 + 4)).take 1)) 0 then 1 else 0
  let cfgcnt := hexVal ((f.drop (o10 + 4)).take 4)
  ⟨stn, idcode, freqType, anlgType, phsrType, phsrFmt, phnmr, annmr, dgnmr,
    channels, phunits, anunits, digunits, fnom, cfgcnt⟩

/-- Total number of hex digits a station record occupies (the running length
the source accumulates). -/
def parseLen (st : Station) : Nat :=
  60 + 32 * (st.phnmr + st.annmr + 16 * st.dgnmr)
    + 8 * (st.phnmr + st.annmr + st.dgnmr)

/-- A station parse succeeds when the input holds at least the declared
number of hex digits (every slice of the source is then in range). -/
def parseOk (f : HexStr) : Bool :=
  parseLen (parse f) ≤ f.length

end Station

/-!
## Phasor: one phasor estimate of a PMU block (pmuDataFrame.Phasor)

The derived quantities use exact real arithmetic in place of Python floats:
math.hypot, math.atan2 and math.degrees are embedded below.
-/

/-- math.hypot. -/
noncomputable def hypot (x y : ℝ) : ℝ := Real.sqrt (x ^ 2 + y ^ 2)

/-- math.atan2 y x: the angle of the point (x, y) in (-pi, pi]. -/
noncomputable def atan2 (y x : ℝ) : ℝ :=
  if 0 < x then Real.arctan (y / x)
  else if x < 0 ∧ 0 ≤ y then Real.arctan (y / x) + Real.pi
  else if x < 0 then Real.arctan (y / x) - Real.pi
  else if 0 < y then Real.pi / 2
  else if y < 0 then -(Real.pi / 2)
  else 0

/-- math.degrees. -/
noncomputable def degreesOf (x : ℝ) : ℝ := x * 180 / Real.pi

/-- Decode one numeric sub-field per the numeric-type flag: a 4-hex-digit
signed 16-bit integer, or an 8-hex-digit IEEE-754 binary32. -/
def unpackNum (t : NumType) (x : HexStr) : ℚ :=
  if t = NumType.INTEGER then (signed16 (hexVal x) : ℚ) else decodeFloat32 (hexVal x)

/-- The parsed Phasor object: both representations are populated at parse
time.  length is the number of hex digits consumed. -/
structure Phasor where
  real : ℝ
  imag : ℝ
  mag : ℝ
  rad : ℝ
  deg : ℝ
  name : List Nat
  length : Nat

/-- Fallback Phasor object for out-of-range list access. -/
def Phasor.empty : Phasor := ⟨0, 0, 0, 0, 0, [], 0⟩

namespace Phasor

/-- Number of hex digits of one phasor: 8 if INTEGER, 16 if FLOAT
(parseFmt). -/
def lengthOf (st : Station) : Nat :=
  if st.phsrType = NumType.INTEGER then 8 else 16

/-- Phasor parse (parseVal / toRect / toPolar).  The two sub-fields are the
halves of the consumed hex digits; RECT derives magnitude and angle from the
parts, POLAR back-computes the parts from magnitude and angle.  The source
applies cosine and sine to self.deg in the POLAR branch. -/
noncomputable def parse (st : Station) (name : List Nat) (h : HexStr) : Phasor :=
  let len := lengthOf st
  let h1 := (h.take len).take (len / 2)
  let h2 := (h.take len).drop (len / 2)
  match st.phsrFmt with
  | PhsrFmt.RECT =>
    let r : ℝ := (unpackNum st.phsrType h1 : ℚ)
    let im : ℝ := (unpackNum st.phsrType h2 : ℚ)
    ⟨r, im, hypot r im, atan2 im r, degreesOf (atan2 im r), name, len⟩
  | PhsrFmt.POLAR =>
    let m : ℝ := (unpackNum st.phsrType h1 : ℚ)
    let rad0 : ℝ := (unpackNum st.phsrType h2 : ℚ)
    let rad := if st.phsrType = NumType.INTEGER then rad0 / 10000 else rad0
    let deg := degreesOf rad
    ⟨m * Real.cos deg, m * Real.sin deg, m, rad, deg, name, len⟩

end Phasor

/-!
## PMU: one measurement block of a data frame (pmuDataFrame.PMU)

The block is walked with a running length: STAT (4 hex digits), the phasor
list, FREQ, DFREQ, the analog list, the digital list.  Frequency values are
exact rationals.
-/

/-- Hex digits of the frequency and ROCOF fields: 4 if INTEGER, 8 if FLOAT. -/
def freqShift (st : Station) : Nat :=
  if st.freqType = NumType.INTEGER then 4 else 8

/-- Hex digits of one analog value: 4 if INTEGER, 8 if FLOAT. -/
def anlgShift (st : Station) : Nat :=
  if st.anlgType = NumType.INTEGER then 4 else 8

/-- Offset of FREQ inside a PMU block: STAT plus the phasor list. -/
def freqPos (st : Station) : Nat :=
  4 + st.phnmr * Phasor.lengthOf st

/-- Offset of DFREQ inside a PMU block. -/
def dfreqPos (st : Station) : Nat :=
  freqPos st + freqShift st

/-- Offset of the analog list inside a PMU block. -/
def analogPos (st : Station) : Nat :=
  dfreqPos st + freqShift st

/-- Offset of the digital list inside a PMU block. -/
def digitalPos (st : Station) : Nat :=
  analogPos st + st.annmr * anlgShift st

/-- The parsed PMU block. -/
structure PMU where
  stat : Stat
  numOfPhsrs : Nat
  phasors : List Phasor
  freq : ℚ
  dfreq : ℚ
  analogs : List (List Nat × ℚ)
  digitals : List (List Nat × Bool)
  length : Nat

namespace PMU

/-- PMU block parse, following the source method order.  parseDigital builds
totValBin once, from the first digital word, before its loop; each loop step
takes channel name phnmr + annmr + i and bit i of that first word, while the
running length still advances by 4 per word. -/
noncomputable def parse (st : Station) (h : HexStr) : PMU :=
  let stat := Stat.parse (h.take 4)
  let phasors := (List.range st.phnmr).map (fun i =>
    Phasor.parse st (st.channels.getD i []) (h.drop (4 + i * Phasor.lengthOf st)))
  let freq := unpackNum st.freqType ((h.drop (freqPos st)).take (freqShift st))
  let dfreq := unpackNum st.freqType ((h.drop (dfreqPos st)).take (freqShift st)) / 100
  let analogs := (List.range st.annmr).map (fun i =>
    (pstrip (st.channels.getD (st.phnmr + i) []),
      unpackNum st.anlgType ((h.drop (analogPos st + i * anlgShift st)).take (anlgShift st))))
  let totValBin := hexToBin ((h.drop (digitalPos st)).take 4) 16
  let digitals := (List.range st.dgnmr).map (fun i =>
    (pstrip (st.channels.getD (st.phnmr + st.annmr + i) []), totValBin.getD i false))
  ⟨stat, st.phnmr, phasors, freq, dfreq, analogs, digitals, digitalPos st + st.dgnmr * 4⟩

end PMU

/-!
## Timestamps (pmuDataFrame.DataFrame.updateSOC, transferFrame timestamp)

The SOC header field is a seconds-since-epoch count (spec section 6); the
base class that breaks it into calendar components is not in the sources.
updateSOC sets soc.ff = fracsec / time_base, rebuilds a datetime whose
microsecond field is int(ff * 10 ** 6), and stores the UTC epoch seconds of
that datetime in soc.utcSec.
-/

/-- soc.ff: the fractional second, fracsec divided by the time base. -/
def fracOfSec (fracsec base : Nat) : ℚ := (fracsec : ℚ) / (base : ℚ)

/-- Modelled from the spec: soc.utcSec after updateSOC.  The datetime round
trip over the missing SOC breakdown yields the integer SOC seconds plus the
truncated microsecond count int(ff * 10 ** 6) over 10 ** 6. -/
def utcSec (socSecs fracsec base : Nat) : ℚ :=
  (socSecs : ℚ) + ((Int.toNat ⌊fracOfSec fracsec base * 1000000⌋ : Nat) : ℚ) / 1000000

/-- transferFrame.TransferFrame.parseDataSample: the emitted timestamp is
soc.utcSec plus fracsec divided by the time base, added on top of the
fractional second already inside utcSec. -/
def transferTimestamp (socSecs fracsec base : Nat) : ℚ :=
  utcSec socSecs fracsec base + fracOfSec fracsec base

/-!
## TransferFrame: the compact relay encoding (transferFrame.py)

pmuLib.intToHexStr and pmuLib.doubleToHexStr are not in the sources.
intToHexStr is modelled from the spec as the minimal hex digits of a
nonnegative integer (no padding, 0 encodes as one digit); doubleToHexStr is
kept as a function argument enc together with the spec property that an
8-byte double always yields 16 hex digits.
-/

/-- Modelled from the spec: pmuLib.intToHexStr, the hex digits of n with no
left padding; 0 is the single digit 0. -/
def intToHexStr (n : Nat) : HexStr :=
  if n = 0 then [0] else (Nat.digits 16 n).reverse

/-- str.zfill over hex strings: pad on the left with zero digits to width k. -/
def zfill (k : Nat) (l : HexStr) : HexStr :=
  List.replicate (k - l.length) 0 ++ l

/-- transferFrame.PhasorField.createPhasorFieldFrame: a 2-byte id, the 8-byte
double magnitude, the 8-byte double angle in radians, and the 2-byte unit
flag (0000 for VOLTAGE, 8000 otherwise, per parseOptions). -/
def PhasorField.frame (enc : ℝ → HexStr) (ident : Nat) (p : Phasor) (u : Phunit) : HexStr :=
  zfill 4 (intToHexStr ident) ++ enc p.mag ++ enc p.rad ++
    (if u.voltORcurr = 0 then zfill 4 (intToHexStr 0) else intToHexStr 32768)

namespace TransferFrame

/-- The station/phasor pairs the transfer frame walks, in declared order
(transferFrame.TransferFrame.parsePhasors): for every configured station,
its phasors with the matching phasor conversion entries. -/
def phasorPairs (df : List (Station × PMU)) : List (Phasor × Phunit) :=
  df.flatMap (fun sp => (List.range sp.2.numOfPhsrs).map (fun ph =>
    (sp.2.phasors.getD ph Phasor.empty, sp.1.phunits.getD ph ⟨0, 0⟩)))

/-- The encoded phasor fields, with sequential 0-based ids. -/
def fields (enc : ℝ → HexStr) (df : List (Station × PMU)) : List HexStr :=
  (phasorPairs df).enum.map (fun ip => PhasorField.frame enc ip.1 ip.2.1 ip.2.2)

/-- The running self.length of parseDataSample, in bytes as an exact
rational: half the header hex length, half of each phasor field hex length,
then the byte sizes of the packed double, unsigned short and unsigned int. -/
def lenValQ (enc : ℝ → HexStr) (df : List (Station × PMU)) : ℚ :=
  2 + ((fields enc df).map (fun f => (f.length : ℚ) / 2)).sum + 8 + 2 + 4

/-- int(self.length): the value written into the 4-byte length-prefix
field. -/
def lenVal (enc : ℝ → HexStr) (df : List (Station × PMU)) : Nat :=
  (⌊lenValQ enc df⌋).toNat

/-- transferFrame.TransferFrame.createFullFrame: marker AAFF, the 4-byte
length prefix, the 8-byte double timestamp, the 2-byte phasor count, then
every phasor field; the CRC trailer is disabled in the source. -/
def frame (enc : ℝ → HexStr) (socSecs fracsec base : Nat)
    (df : List (Station × PMU)) : HexStr :=
  [10, 10, 15, 15] ++ zfill 8 (intToHexStr (lenVal enc df)) ++
    enc ((transferTimestamp socSecs fracsec base : ℚ) : ℝ) ++
    zfill 4 (intToHexStr (fields enc df).length) ++
    (fields enc df).flatten

end TransferFrame

/-!
## Client.readSample (client.py) and the stream framing (tools.py)

A stream transport is modelled as the queue of byte chunks successive recv
calls return; a closed socket returns an empty chunk forever.  readSample
appends chunks while the collected length is below the requested count, so
it is embedded with explicit fuel: none means the loop has not returned
within that many iterations.
-/

/-- socket.recv n on the modelled transport: the next queued chunk, at most
n bytes of it; an exhausted (closed) transport yields empty bytes forever. -/
def recv (n : Nat) (chunks : List (List Nat)) : List Nat × List (List Nat) :=
  match chunks with
  | [] => ([], [])
  | c :: rest => (c.take n, if n < c.length then c.drop n :: rest else rest)

namespace Client

/-- client.Client.readSample: while the collected bytes are fewer than
bytesToRead, receive up to the missing count and append.  The loop body has
no exit besides the length test, so the embedding spends one unit of fuel
per iteration. -/
def readSampleLoop (fuel bytesToRead : Nat) (acc : List Nat)
    (chunks : List (List Nat)) : Option (List Nat) :=
  match fuel with
  | 0 => none
  | Nat.succ f =>
    if acc.length < bytesToRead then
      let r := recv (bytesToRead - acc.length) chunks
      readSampleLoop f bytesToRead (acc ++ r.1) r.2
    else some acc

/-- The terminating behaviour of readSample on a live stream with enough
bytes queued: exactly the first bytesToRead bytes of the stream. -/
def readSample (stream : List Nat) (bytesToRead : Nat) : List Nat :=
  stream.take bytesToRead

end Client

/-- tools.getDataSampleBytes for a stream client with the default
total_bytes = -1: read 4 intro bytes, take the frame size from hex digits
5 to 7 of their hex string, then read that many bytes minus the 4 already
read (a nonpositive remainder reads nothing, as in the source). -/
def getDataSampleBytes (stream : List Nat) : List Nat :=
  let intro_bytes := Client.readSample stream 4
  let introHexStr := bytesToHexStr intro_bytes
  let total_bytes := hexVal (introHexStr.drop 5)
  let lenToRead := total_bytes - 4
  let payload_bytes := Client.readSample (stream.drop 4) lenToRead
  intro_bytes ++ payload_bytes

/-- The 2-byte big-endian Frame length field at byte offset 2 of a frame
header, per the spec wire table. -/
def frameLengthField (stream : List Nat) : Nat :=
  256 * stream.getD 2 0 + stream.getD 3 0

/-!
## Concrete frames used as inputs in the theorems below
-/

/-- A TCP byte stream whose first frame declares length 0x1010 = 4112 and is
fully available: sync AA 01, frame length 10 10, then the rest of the
frame. -/
def c1Stream : List Nat := [170, 1, 16, 16] ++ List.replicate 4108 7

/-- A station with no phasors, no analogs and one digital word; its channel
name table has the required 16 entries (single letters A, B, ...). -/
def stD : Station :=
  { stn := [], idcode_data := 1, freqType := NumType.INTEGER,
    anlgType := NumType.INTEGER, phsrType := NumType.INTEGER,
    phsrFmt := PhsrFmt.RECT, phnmr := 0, annmr := 0, dgnmr := 1,
    channels := (List.range 16).map (fun i => [65 + i]),
    phunits := [], anunits := [], digunits := [⟨[]⟩], fnom := 0, cfgcnt := 0 }

/-- PMU block bytes for stD: STAT 0000, FREQ 0000, DFREQ 0000, one digital
word 8000 (only its most significant bit set). -/
def hD : HexStr := List.replicate 12 0 ++ [8, 0, 0, 0]

/-- A station with FLOAT frequency type and no other channels. -/
def stF : Station :=
  { stn := [], idcode_data := 1, freqType := NumType.FLOAT,
    anlgType := NumType.INTEGER, phsrType := NumType.INTEGER,
    phsrFmt := PhsrFmt.RECT, phnmr := 0, annmr := 0, dgnmr := 0,
    channels := [], phunits := [], anunits := [], digunits := [],
    fnom := 0, cfgcnt := 0 }

/-- PMU block bytes for stF: STAT 0000, FREQ 00000000, then DFREQ
42C80000, the binary32 encoding of 100.0. -/
def hF : HexStr := [0, 0, 0, 0, 0, 0, 0, 0, 0, 0, 0, 0, 4, 2, 12, 8, 0, 0, 0, 0]

/-- A station declaring POLAR representation with INTEGER phasors. -/
def stP : Station :=
  { stn := [], idcode_data := 1, freqType := NumType.INTEGER,
    anlgType := NumType.INTEGER, phsrType := NumType.INTEGER,
    phsrFmt := PhsrFmt.POLAR, phnmr := 1, annmr := 0, dgnmr := 0,
    channels := [[86, 65]], phunits := [⟨0, 1⟩], anunits := [], digunits := [],
    fnom := 0, cfgcnt := 0 }

/-- One POLAR INTEGER phasor: magnitude field 2328 (9000) and angle field
2710 (10000, hence 1.0 radian after the 1/10000 scaling). -/
def hP : HexStr := [2, 3, 2, 8, 2, 7, 1, 0]

/-- A station declaring RECT representation with INTEGER phasors. -/
def stR : Station :=
  { stn := [], idcode_data := 1, freqType := NumType.INTEGER,
    anlgType := NumType.INTEGER, phsrType := NumType.INTEGER,
    phsrFmt := PhsrFmt.RECT, phnmr := 1, annmr := 0, dgnmr := 0,
    channels := [[86, 65]], phunits := [⟨0, 1⟩], anunits := [], digunits := [],
    fnom := 0, cfgcnt := 0 }

/-- One RECT INTEGER phasor: real field 2328 (9000), imaginary field 0. -/
def hR : HexStr := [2, 3, 2, 8, 0, 0, 0, 0]

/-- A PMU block record declaring one phasor, as input for the transfer
encoder. -/
def pmuW : PMU := ⟨Stat.init, 1, [Phasor.empty], 0, 0, [], [], 0⟩

/-- A degenerate double encoder for witnesses: every value encodes as 16
zero hex digits, satisfying the 8-byte-double length property. -/
def encW : ℝ → HexStr := fun _ => List.replicate 16 0

/-!
## Helper lemmas
-/

lemma float_ne_integer : NumType.FLOAT ≠ NumType.INTEGER := by decide

lemma integer_ne_float : NumType.INTEGER ≠ NumType.FLOAT := by decide

/-- On a closed transport (no chunks queued), recv yields empty bytes, so the
readSample loop never returns as long as the collected bytes fall short. -/
lemma readSampleLoop_closed (n : Nat) :
    ∀ (fuel : Nat) (acc : List Nat), acc.length < n →
      Client.readSampleLoop fuel n acc [] = none := by
  intro fuel
  induction fuel with
  | zero => intro acc _; rfl
  | succ f ih =>
    intro acc hlt
    simp only [Client.readSampleLoop, recv, if_pos hlt, List.append_nil]
    exact ih acc hlt

/-- zfill pads to exactly the requested width when the input is short
enough. -/
lemma zfill_length {k : Nat} {l : HexStr} (h : l.length ≤ k) :
    (zfill k l).length = k := by
  simp [zfill]
  omega

/-- intToHexStr yields at most k digits for values below 16 to the k. -/
lemma intToHexStr_length_le {m k : Nat} (hk : 0 < k) (hm : m < 16 ^ k) :
    (intToHexStr m).length ≤ k := by
  unfold intToHexStr
  rcases Nat.eq_zero_or_pos m with h0 | h0
  · subst h0
    simpa using hk
  · have hm0 : m ≠ 0 := Nat.pos_iff_ne_zero.mp h0
    rw [if_neg hm0, List.length_reverse, Nat.digits_len 16 m (by norm_num) hm0]
    have hlog := (Nat.lt_pow_iff_log_lt (by norm_num : 1 < 16) hm0).mp hm
    omega

/-- The CURRENT unit flag 8000 is four hex digits. -/
lemma intToHexStr_32768_length : (intToHexStr 32768).length = 4 := by
  have h0 : (32768 : Nat) ≠ 0 := by norm_num
  rw [intToHexStr, if_neg h0, List.length_reverse,
    Nat.digits_len 16 32768 (by norm_num) h0,
    Nat.log_eq_of_pow_le_of_lt_pow (show 16 ^ 3 ≤ 32768 by norm_num) (by norm_num)]

/-- Every encoded phasor field is 40 hex digits (20 bytes) when the double
encoder emits 16 digits and the id fits the 2-byte field. -/
lemma phasorField_frame_length (enc : ℝ → HexStr)
    (Henc : ∀ x, (enc x).length = 16) (ident : Nat) (p : Phasor) (u : Phunit)
    (hid : ident < 65536) :
    (PhasorField.frame enc ident p u).length = 40 := by
  have h1 : (zfill 4 (intToHexStr ident)).length = 4 :=
    zfill_length (intToHexStr_length_le (by norm_num) (by norm_num; omega))
  have h2 : (if u.voltORcurr = 0 then zfill 4 (intToHexStr 0)
      else intToHexStr 32768).length = 4 := by
    split
    · rfl
    · exact intToHexStr_32768_length
  simp [PhasorField.frame, h1, h2, Henc]

/-- Cosine of the degree value 180 / pi differs from cosine of the radian
value 1: shifting by nine full turns lands 180 / pi in [0, pi], where cosine
is injective, and 180 = pi + 18 * pi ^ 2 is refuted by the numeric bounds
on pi. -/
lemma cos_degrees_ne_cos_one : Real.cos (degreesOf 1) ≠ Real.cos 1 := by
  have hgt : (3.14 : ℝ) < Real.pi := Real.pi_gt_d2
  have hlt : Real.pi < 3.15 := Real.pi_lt_d2
  have hpos : (0 : ℝ) < Real.pi := Real.pi_pos
  intro hcos
  have hdeg : degreesOf 1 = 180 / Real.pi := by
    rw [degreesOf, one_mul]
  have hshift : Real.cos (180 / Real.pi - (9 : ℤ) * (2 * Real.pi)) =
      Real.cos (180 / Real.pi) := Real.cos_sub_int_mul_two_pi _ 9
  have ha : (180 / Real.pi - (9 : ℤ) * (2 * Real.pi)) =
      180 / Real.pi - 18 * Real.pi := by push_cast; ring
  have h0a : 0 ≤ 180 / Real.pi - 18 * Real.pi := by
    rw [sub_nonneg, le_div_iff₀ hpos]
    nlinarith
  have hapi : 180 / Real.pi - 18 * Real.pi ≤ Real.pi := by
    rw [sub_le_iff_le_add, div_le_iff₀ hpos]
    nlinarith
  have h1pi : (1 : ℝ) ≤ Real.pi := by nlinarith
  have hcos2 : Real.cos (180 / Real.pi - 18 * Real.pi) = Real.cos 1 := by
    rw [← ha, hshift, ← hdeg, hcos]
  have heq := Real.injOn_cos ⟨h0a, hapi⟩ ⟨by norm_num, h1pi⟩ hcos2
  have h180 : 180 / Real.pi = 1 + 18 * Real.pi := by linarith
  rw [div_eq_iff (ne_of_gt hpos)] at h180
  nlinarith

/-!
## The claims
-/

/-- C1: the claim states that a frame read from a stream transport by
getDataSampleBytes (default total_bytes) always has exactly as many bytes as
the 2-byte Frame length field at byte offset 2 of its header.  Evaluating
the code at a fully available frame whose length field is 0x1010 = 4112:
the source takes the frame size from hex digits 5 to 7 of the intro bytes
(the low 12 bits of the field only), so it returns 16 bytes, not 4112. -/
theorem C1_getDataSampleBytes_truncated_length :
    (getDataSampleBytes c1Stream).length = 16 ∧
    frameLengthField c1Stream = 4112 ∧
    c1Stream.length = 4112 ∧ (16 : Nat) ≠ 4112 := by
  refine ⟨rfl, rfl, ?_, by decide⟩
  simp only [c1Stream, List.length_append, List.length_replicate,
    List.length_cons, List.length_nil]

/-- C2: the claim states that each digital word of a PMU block expands into
exactly 16 (channel-name, bit) pairs, bit i of word w paired with channel
phnmr + annmr + 16 * w + i, for 16 * dgnmr entries in total.  Evaluating
parseDigital at a station with one digital word and the required 16 channel
names and at the digital word 8000: the source emits one pair per digital
word (dgnmr pairs in total, here a single pair naming channel
phnmr + annmr + 0), not 16 pairs per word. -/
theorem C2_parseDigital_one_pair_per_word :
    (PMU.parse stD hD).digitals = [([65], true)] ∧
    (PMU.parse stD hD).digitals.length = 1 ∧
    stD.dgnmr = 1 ∧ stD.channels.length = 16 := by decide

/-- C5: the claim states that all nine status flags are decoded into
distinct outputs, the bits-[7:10) time-quality code stored in the
time-quality field and the bits-[10:12) unlocked-time code in a separate
unlocked-time field.  Evaluating Stat at the word 0380 (time-quality code 6,
unlocked-time code 0): parseTimeQuality assigns the time-quality code to the
unlockedTime attribute, parseUnlockTime then overwrites it, and the
timeQuality attribute is never assigned at all. -/
theorem C5_stat_timeQuality_misassigned :
    (Stat.parse [0, 3, 8, 0]).timeQuality = none ∧
    Stat.timeQualityCode [0, 3, 8, 0] = 6 ∧
    (Stat.parse [0, 3, 8, 0]).unlockedTime =
      some (Stat.unlockedTimeCode [0, 3, 8, 0]) ∧
    Stat.unlockedTimeCode [0, 3, 8, 0] = 0 := by decide

/-- C6 counterexample: the claim states that a FLOAT-typed ROCOF yields the
decoded value itself, unscaled.  At a PMU block whose DFREQ field is the
binary32 encoding of 100.0, the source yields 1, not the decoded 100: the
division by 100 is applied in both branches. -/
theorem C6_float_rocof_also_divided :
    stF.freqType = NumType.FLOAT ∧
    (PMU.parse stF hF).dfreq ≠
      decodeFloat32 (hexVal ((hF.drop (dfreqPos stF)).take 8)) := by
  refine ⟨rfl, ?_⟩
  have h1 : (PMU.parse stF hF).dfreq = 1 := by
    norm_num [PMU.parse, unpackNum, float_ne_integer, decodeFloat32, hexVal, hF,
      stF, dfreqPos, freqPos, freqShift, Phasor.lengthOf]
  have h2 : decodeFloat32 (hexVal ((hF.drop (dfreqPos stF)).take 8)) = 100 := by
    norm_num [decodeFloat32, hexVal, hF, stF, dfreqPos, freqPos, freqShift,
      Phasor.lengthOf, float_ne_integer]
  rw [h1, h2]
  norm_num

/-- C6 as amended: ROCOF is decoded with the same byte width as frequency
(2-byte signed integer when the frequency type flag is INTEGER, 4-byte
float when FLOAT) and the decoded value is divided by 100 in both forms. -/
theorem C6_parseDfreq_same_width_div100 (st : Station) (h : HexStr) :
    (st.freqType = NumType.INTEGER →
      (PMU.parse st h).dfreq =
        (signed16 (hexVal ((h.drop (dfreqPos st)).take 4)) : ℚ) / 100) ∧
    (st.freqType = NumType.FLOAT →
      (PMU.parse st h).dfreq =
        decodeFloat32 (hexVal ((h.drop (dfreqPos st)).take 8)) / 100) := by
  constructor <;> intro ht <;>
    simp [PMU.parse, unpackNum, freqShift, ht, float_ne_integer]

/-- Witness for C6: the amended statement applied to the concrete
FLOAT-typed station and DFREQ field 42C80000. -/
theorem C6_parseDfreq_same_width_div100_witness :
    stF.freqType = NumType.FLOAT ∧
    (PMU.parse stF hF).dfreq =
      decodeFloat32 (hexVal ((hF.drop (dfreqPos stF)).take 8)) / 100 :=
  ⟨rfl, (C6_parseDfreq_same_width_div100 stF hF).2 rfl⟩

/-- C7: the claim states that a read of a declared byte count fails with a
typed ShortRead error when the transport closes early and with a Timeout
error when no data arrives, instead of blocking or looping indefinitely.
In the source, recv on a closed socket returns empty bytes and the while
loop of Client.readSample has no other exit, so a request for 10 bytes of
which only 5 arrive before closure never returns, for any number of loop
iterations; no ShortRead error exists in the code. -/
theorem C7_readSample_loops_on_closed_transport :
    ∀ fuel : Nat,
      Client.readSampleLoop fuel 10 [] [[1, 2, 3, 4, 5]] = none := by
  intro fuel
  cases fuel with
  | zero => rfl
  | succ f =>
    have h := readSampleLoop_closed 10 f [1, 2, 3, 4, 5] (by decide)
    simpa [Client.readSampleLoop, recv] using h

/-- C3: the claim states that for POLAR INTEGER phasors the radians are the
raw angle field over 10000, degrees are derived from radians, and the
rectangular parts are magnitude times cosine and sine of the radians.
Evaluating toPolar at magnitude field 2328 (9000) and angle field 2710
(10000): radians, degrees and magnitude come out as claimed, but the source
computes real and imaginary as magnitude times cosine and sine of self.deg,
the degree value 180 / pi, which differs from the radian value 1, and the
resulting real part provably differs from the 9000 * cos(1) the claim
requires. -/
theorem C3_toPolar_cos_applied_to_degrees :
    (Phasor.parse stP [] hP).mag = 9000 ∧
    (Phasor.parse stP [] hP).rad = 1 ∧
    (Phasor.parse stP [] hP).deg = degreesOf 1 ∧
    (Phasor.parse stP [] hP).real = 9000 * Real.cos (degreesOf 1) ∧
    (Phasor.parse stP [] hP).imag = 9000 * Real.sin (degreesOf 1) ∧
    degreesOf 1 ≠ 1 ∧
    9000 * Real.cos (degreesOf 1) ≠ 9000 * Real.cos 1 := by
  have hne : degreesOf 1 ≠ 1 := by
    have h4 : Real.pi ≤ 4 := Real.pi_le_four
    have h0 : 0 < Real.pi := Real.pi_pos
    simp only [degreesOf, one_mul]
    intro hh
    rw [div_eq_one_iff_eq (ne_of_gt h0)] at hh
    rw [← hh] at h4
    norm_num at h4
  have hmul : 9000 * Real.cos (degreesOf 1) ≠ 9000 * Real.cos 1 := fun h =>
    cos_degrees_ne_cos_one (mul_left_cancel₀ (by norm_num) h)
  refine ⟨?_, ?_, ?_, ?_, ?_, hne, hmul⟩ <;>
    norm_num [Phasor.parse, Phasor.lengthOf, unpackNum, stP, hP, signed16, hexVal,
      integer_ne_float]

/-- C4: for a station declaring RECT representation, the two phasor
sub-fields decode as the real and imaginary parts (signed 16-bit integers or
binary32 floats per the numeric-type flag), the magnitude is hypot of the
parts and the degree angle is degrees of atan2(imag, real). -/
theorem C4_toRect_derived_fields (st : Station) (name : List Nat) (h : HexStr)
    (hf : st.phsrFmt = PhsrFmt.RECT) :
    ((Phasor.parse st name h).mag =
      hypot (Phasor.parse st name h).real (Phasor.parse st name h).imag) ∧
    ((Phasor.parse st name h).deg =
      degreesOf (atan2 (Phasor.parse st name h).imag (Phasor.parse st name h).real)) ∧
    (st.phsrType = NumType.INTEGER →
      (Phasor.parse st name h).real = ((signed16 (hexVal (h.take 4)) : ℚ) : ℝ) ∧
      (Phasor.parse st name h).imag = ((signed16 (hexVal ((h.drop 4).take 4)) : ℚ) : ℝ)) ∧
    (st.phsrType = NumType.FLOAT →
      (Phasor.parse st name h).real = ((decodeFloat32 (hexVal (h.take 8)) : ℚ) : ℝ) ∧
      (Phasor.parse st name h).imag = ((decodeFloat32 (hexVal ((h.drop 8).take 8)) : ℚ) : ℝ)) := by
  cases hpt : st.phsrType <;>
    simp [Phasor.parse, Phasor.lengthOf, unpackNum, hf, hpt, float_ne_integer,
      integer_ne_float, List.take_take, List.drop_take]

/-- Witness for C4: the theorem applied to a concrete RECT INTEGER station
and the phasor field 2328 0000. -/
theorem C4_toRect_derived_fields_witness :
    stR.phsrFmt = PhsrFmt.RECT ∧
    (((Phasor.parse stR [] hR).mag =
      hypot (Phasor.parse stR [] hR).real (Phasor.parse stR [] hR).imag) ∧
    ((Phasor.parse stR [] hR).deg =
      degreesOf (atan2 (Phasor.parse stR [] hR).imag (Phasor.parse stR [] hR).real)) ∧
    (stR.phsrType = NumType.INTEGER →
      (Phasor.parse stR [] hR).real = ((signed16 (hexVal (hR.take 4)) : ℚ) : ℝ) ∧
      (Phasor.parse stR [] hR).imag = ((signed16 (hexVal ((hR.drop 4).take 4)) : ℚ) : ℝ)) ∧
    (stR.phsrType = NumType.FLOAT →
      (Phasor.parse stR [] hR).real = ((decodeFloat32 (hexVal (hR.take 8)) : ℚ) : ℝ) ∧
      (Phasor.parse stR [] hR).imag = ((decodeFloat32 (hexVal ((hR.drop 8).take 8)) : ℚ) : ℝ))) :=
  ⟨rfl, C4_toRect_derived_fields stR [] hR rfl⟩

/-- C8: for every successfully parsed Station the channel-name table has
exactly phnmr + annmr + 16 * dgnmr entries and the phasor, analog and
digital conversion tables have exactly phnmr, annmr and dgnmr entries. -/
theorem C8_station_table_lengths (f : HexStr) (_hok : Station.parseOk f = true) :
    (Station.parse f).channels.length =
      (Station.parse f).phnmr + (Station.parse f).annmr +
        16 * (Station.parse f).dgnmr ∧
    (Station.parse f).phunits.length = (Station.parse f).phnmr ∧
    (Station.parse f).anunits.length = (Station.parse f).annmr ∧
    (Station.parse f).digunits.length = (Station.parse f).dgnmr := by
  simp [Station.parse]

/-- Witness for C8: the theorem applied to a complete 60-hex-digit station
record with zero declared counts. -/
theorem C8_station_table_lengths_witness :
    Station.parseOk (List.replicate 60 0) = true ∧
    ((Station.parse (List.replicate 60 0)).channels.length =
      (Station.parse (List.replicate 60 0)).phnmr +
        (Station.parse (List.replicate 60 0)).annmr +
        16 * (Station.parse (List.replicate 60 0)).dgnmr ∧
    (Station.parse (List.replicate 60 0)).phunits.length =
      (Station.parse (List.replicate 60 0)).phnmr ∧
    (Station.parse (List.replicate 60 0)).anunits.length =
      (Station.parse (List.replicate 60 0)).annmr ∧
    (Station.parse (List.replicate 60 0)).digunits.length =
      (Station.parse (List.replicate 60 0)).dgnmr) :=
  ⟨by decide, C8_station_table_lengths (List.replicate 60 0) (by decide)⟩

/-- C9: the claim states that the transfer frame timestamp equals SOC plus
fracsec divided by the time base, the fractional second contributing exactly
once.  At SOC 1000, fracsec 500000, time base 1000000 the source emits
1001: soc.utcSec already contains the 0.5 fractional second and
parseDataSample adds fracsec / time_base a second time. -/
theorem C9_transfer_timestamp_double_fracsec :
    transferTimestamp 1000 500000 1000000 = 1001 ∧
    (1000 : ℚ) + fracOfSec 500000 1000000 = 2001 / 2 ∧
    (1001 : ℚ) ≠ 2001 / 2 := by
  have h1 : Int.toNat 500000 = 500000 := rfl
  refine ⟨?_, ?_, by norm_num⟩ <;>
    norm_num [transferTimestamp, utcSec, fracOfSec, h1]

/-- C10: every encoded PhasorField occupies exactly 20 bytes (40 hex
digits), the whole emitted transfer frame is 16 + 20 * numOfPhasors bytes,
and the value written in the 4-byte length-prefix field equals that total
byte length, prefix included.  Stated for any double encoder that emits 16
hex digits per value and for frames whose phasor count fits the 2-byte
count field. -/
theorem C10_transfer_frame_lengths (enc : ℝ → HexStr)
    (Henc : ∀ x, (enc x).length = 16)
    (socSecs fracsec base : Nat) (df : List (Station × PMU))
    (hn : (TransferFrame.phasorPairs df).length ≤ 65535) :
    (∀ f ∈ TransferFrame.fields enc df, f.length = 2 * 20) ∧
    TransferFrame.lenVal enc df =
      16 + 20 * (TransferFrame.fields enc df).length ∧
    (TransferFrame.frame enc socSecs fracsec base df).length =
      2 * (16 + 20 * (TransferFrame.fields enc df).length) := by
  have hflen : ∀ f ∈ TransferFrame.fields enc df, f.length = 40 := by
    intro f hf
    rw [TransferFrame.fields] at hf
    obtain ⟨ip, hip, rfl⟩ := List.mem_map.mp hf
    have hlt : ip.1 < (TransferFrame.phasorPairs df).length :=
      List.fst_lt_of_mem_enum hip
    exact phasorField_frame_length enc Henc ip.1 ip.2.1 ip.2.2 (by omega)
  have hnn : (TransferFrame.fields enc df).length =
      (TransferFrame.phasorPairs df).length := by
    simp [TransferFrame.fields]
  have hsum : ((TransferFrame.fields enc df).map
      (fun f => (f.length : ℚ) / 2)).sum =
      20 * ((TransferFrame.fields enc df).length : ℚ) := by
    have hmap : (TransferFrame.fields enc df).map (fun f => (f.length : ℚ) / 2) =
        (TransferFrame.fields enc df).map (fun _ => (20 : ℚ)) :=
      List.map_congr_left (fun a ha => by rw [hflen a ha]; norm_num)
    rw [hmap, List.map_const', List.sum_replicate, nsmul_eq_mul]
    ring
  have hlenq : TransferFrame.lenValQ enc df =
      ((16 + 20 * (TransferFrame.fields enc df).length : Nat) : ℚ) := by
    rw [TransferFrame.lenValQ, hsum]
    push_cast
    ring
  have hlv : TransferFrame.lenVal enc df =
      16 + 20 * (TransferFrame.fields enc df).length := by
    rw [TransferFrame.lenVal, hlenq, Int.floor_natCast, Int.toNat_natCast]
  refine ⟨by simpa using hflen, hlv, ?_⟩
  have hsumN : ((TransferFrame.fields enc df).map List.length).sum =
      40 * (TransferFrame.fields enc df).length := by
    have hmap : (TransferFrame.fields enc df).map List.length =
        (TransferFrame.fields enc df).map (fun _ => (40 : Nat)) :=
      List.map_congr_left (fun a ha => hflen a ha)
    rw [hmap, List.map_const', List.sum_replicate, smul_eq_mul]
    ring
  have h8 : (zfill 8 (intToHexStr (TransferFrame.lenVal enc df))).length = 8 := by
    refine zfill_length (intToHexStr_length_le (by norm_num) ?_)
    rw [hlv]
    have := hnn
    omega
  have h4 : (zfill 4 (intToHexStr (TransferFrame.fields enc df).length)).length = 4 := by
    refine zfill_length (intToHexStr_length_le (by norm_num) ?_)
    omega
  rw [TransferFrame.frame]
  simp [h8, h4, Henc, List.length_flatten, hsumN]
  omega

/-- Witness for C10: the theorem applied to the degenerate 16-digit double
encoder and a single station/PMU pair declaring one phasor. -/
theorem C10_transfer_frame_lengths_witness :
    (∀ x, (encW x).length = 16) ∧
    (TransferFrame.phasorPairs [(stR, pmuW)]).length ≤ 65535 ∧
    ((∀ f ∈ TransferFrame.fields encW [(stR, pmuW)], f.length = 2 * 20) ∧
    TransferFrame.lenVal encW [(stR, pmuW)] =
      16 + 20 * (TransferFrame.fields encW [(stR, pmuW)]).length ∧
    (TransferFrame.frame encW 0 0 1 [(stR, pmuW)]).length =
      2 * (16 + 20 * (TransferFrame.fields encW [(stR, pmuW)]).length)) :=
  ⟨fun x => by simp [encW], by decide,
    C10_transfer_frame_lengths encW (fun x => by simp [encW]) 0 0 1
      [(stR, pmuW)] (by decide)⟩

end PyMU
